import Mathlib

/-!
Verification of the locafoto container formats.

Shallow embedding of the repository's three scripts:
* `scripts/create_sample_lfs.py` — `create_lfs_file`
* `scripts/loco_helper.py` — `create_key_file`, `encrypt_single_file`, `load_key_from_file`
* `scripts/create_sample_locaphoto.py` — `encrypt_photo`, `encrypt_symmetric_key`,
  `create_locaphoto_bundle`

Bytes are `Nat` (values below 256 where it matters), byte strings are `List Nat`.
The process-wide secure random source (`secrets.token_bytes`) is modelled as an
injected byte generator `rand : Nat → Nat`, read at successive indices.
-/

/-- Model of `secrets.token_bytes(n)`: `n` bytes drawn from the injected random
source starting at index `start`, each reduced to a byte value. -/
def tokenBytes (rand : Nat → Nat) (start n : Nat) : List Nat :=
  (List.range n).map (fun i => rand (start + i) % 256)

/-! ### AEAD primitive model

`AESGCM` comes from the external `cryptography` library, not from this
repository.  It is modelled after its documented contract (spec §4.1): the
ciphertext is the plaintext XOR a keystream determined by key and nonce (so it
has the plaintext's length and decryption inverts it), and the 16-byte tag is a
function of key, nonce, ciphertext and associated data.  `AESGCM.encrypt`
returns ciphertext followed by tag; `None` associated data is the empty byte
string. -/

/-- Fold of a byte string into a number, base 256 — injective on byte lists of
a fixed length, used to let the keystream and tag depend on their inputs. -/
def byteFold (l : List Nat) (seed : Nat) : Nat :=
  l.foldl (fun a b => a * 256 + b) seed

/-- Keystream byte `i` of the modelled AES-CTR stream under `key` and `nonce`. -/
def gcmKeystreamByte (key nonce : List Nat) (i : Nat) : Nat :=
  (byteFold key 7 + byteFold nonce 11 + 2 * i) % 256

/-- First `n` keystream bytes under `key` and `nonce`. -/
def gcmKeystream (key nonce : List Nat) (n : Nat) : List Nat :=
  (List.range n).map (gcmKeystreamByte key nonce)

/-- Ciphertext of the modelled AEAD: plaintext XOR keystream, same length as
the plaintext. -/
def gcmCiphertext (key nonce pt : List Nat) : List Nat :=
  List.zipWith Nat.xor pt (gcmKeystream key nonce pt.length)

/-- The 16-byte authentication tag of the modelled AEAD, a function of key,
nonce, ciphertext and associated data. -/
def gcmTag (key nonce ct aad : List Nat) : List Nat :=
  (List.range 16).map
    (fun i => (byteFold ct 3 + byteFold aad 5 + gcmKeystreamByte key nonce i + i) % 256)

/-- Model of `AESGCM(key).encrypt(nonce, pt, aad)`: ciphertext followed by the
16-byte tag. -/
def aesgcmEncrypt (key nonce pt aad : List Nat) : List Nat :=
  gcmCiphertext key nonce pt ++ gcmTag key nonce (gcmCiphertext key nonce pt) aad

/-- Model of `AESGCM(key).decrypt`: recompute the tag over the ciphertext and
associated data; on mismatch fail closed, otherwise invert the keystream. -/
def aesgcmDecrypt (key nonce ct tag aad : List Nat) : Option (List Nat) :=
  if gcmTag key nonce ct aad = tag then
    some (List.zipWith Nat.xor ct (gcmKeystream key nonce ct.length))
  else none

/-! ### LFS container encode (from the source) -/

/-- Failure of LFS encode: the `ValueError("Key name too long ...")` raised at
`create_sample_lfs.py:51` and `loco_helper.py:85`. -/
inductive LfsEncodeError
  | keyNameTooLong
deriving DecidableEq

/-- Embedding of `create_lfs_file` (`create_sample_lfs.py:25-58`).  `keyName`
is the UTF-8 byte string `key_name.encode('utf-8')`; the nonce is drawn from
the injected random source. -/
def create_lfs_file (keyName encryptionKey imageData : List Nat) (rand : Nat → Nat) :
    Except LfsEncodeError (List Nat) :=
  let nonce := tokenBytes rand 0 12
  let encryptedResult := aesgcmEncrypt encryptionKey nonce imageData []
  let ciphertext := encryptedResult.take (encryptedResult.length - 16)
  let tag := encryptedResult.drop (encryptedResult.length - 16)
  if 128 < keyName.length then
    .error .keyNameTooLong
  else
    let header := keyName ++ List.replicate (128 - keyName.length) 0
    .ok (header ++ ciphertext ++ nonce ++ tag)

/-- Embedding of the pure core of `encrypt_single_file` (`loco_helper.py:61-94`):
the bytes written to the output `.lfs` file, given the bytes read from the
input file. -/
def encrypt_single_file (keyName keyData fileData : List Nat) (rand : Nat → Nat) :
    Except LfsEncodeError (List Nat) :=
  let nonce := tokenBytes rand 0 12
  let encryptedResult := aesgcmEncrypt keyData nonce fileData []
  let ciphertext := encryptedResult.take (encryptedResult.length - 16)
  let tag := encryptedResult.drop (encryptedResult.length - 16)
  if 128 < keyName.length then
    .error .keyNameTooLong
  else
    let header := keyName ++ List.replicate (128 - keyName.length) 0
    .ok (header ++ ciphertext ++ nonce ++ tag)

/-! ### LFS container decode (modelled from the spec) -/

/-- Failures of LFS decode named by spec §4.2. -/
inductive LfsDecodeError
  | malformedContainer
  | unknownKey
  | authenticationFailure
deriving DecidableEq

/-- Strip trailing zero bytes from a byte string. -/
def stripTrailingZeros (l : List Nat) : List Nat :=
  (l.reverse.dropWhile (fun b => b = 0)).reverse

/-- Modelled from the spec: LFS `decode` (spec §4.2) is described but absent
from the source, which only encodes.  Fails `MalformedContainer` below 156
bytes; recovers the key identifier from the first 128 bytes by stripping
trailing zero padding; resolves it to a key (`UnknownKey` on failure); slices
ciphertext, 12-byte nonce and 16-byte tag from the remainder and AEAD-decrypts,
propagating `AuthenticationFailure`. -/
def decode_lfs (container : List Nat) (resolver : List Nat → Option (List Nat)) :
    Except LfsDecodeError (List Nat) :=
  if container.length < 156 then .error .malformedContainer
  else
    let name := stripTrailingZeros (container.take 128)
    match resolver name with
    | none => .error .unknownKey
    | some key =>
      let ct := (container.drop 128).take (container.length - 156)
      let nonce := (container.drop (container.length - 28)).take 12
      let tag := container.drop (container.length - 16)
      match aesgcmDecrypt key nonce ct tag [] with
      | none => .error .authenticationFailure
      | some pt => .ok pt

/-! ### Base64 (model of the external `base64` library, ASCII-code level) -/

/-- The base64 alphabet as ASCII codes: `A`-`Z`, `a`-`z`, `0`-`9`, `+`, `/`. -/
def b64Alphabet : List Nat :=
  (List.range 26).map (fun i => 65 + i) ++ (List.range 26).map (fun i => 97 + i) ++
    (List.range 10).map (fun i => 48 + i) ++ [43, 47]

/-- ASCII code of the base64 character for a sextet `n < 64`. -/
def b64Char (n : Nat) : Nat := b64Alphabet.getD n 0

/-- Sextet value of a base64 ASCII code, `none` when outside the alphabet
(in particular for the pad character `=`, ASCII 61). -/
def b64Index (c : Nat) : Option Nat := b64Alphabet.findIdx? (fun a => a = c)

/-- Base64 encoding of a byte string, as the ASCII codes of the output text,
in 3-byte groups with `=` (ASCII 61) padding. -/
def b64encode : List Nat → List Nat
  | [] => []
  | [b0] => [b64Char (b0 / 4), b64Char (b0 % 4 * 16), 61, 61]
  | [b0, b1] => [b64Char (b0 / 4), b64Char (b0 % 4 * 16 + b1 / 16), b64Char (b1 % 16 * 4), 61]
  | b0 :: b1 :: b2 :: rest =>
      b64Char (b0 / 4) :: b64Char (b0 % 4 * 16 + b1 / 16) ::
        b64Char (b1 % 16 * 4 + b2 / 64) :: b64Char (b2 % 64) :: b64encode rest

/-- Base64 decoding of ASCII codes back to a byte string, `none` on text that
is not well-formed base64.  This is stricter than Python's default-lenient
`base64.b64decode`, which discards non-alphabet characters before decoding;
no theorem below relies on the failure path, only on decoding well-formed
base64 text, where the two agree. -/
def b64decode : List Nat → Option (List Nat)
  | [] => some []
  | c0 :: c1 :: c2 :: c3 :: rest =>
    match b64Index c0, b64Index c1 with
    | some n0, some n1 =>
      if c2 = 61 then
        if c3 = 61 ∧ rest = [] then some [n0 * 4 + n1 / 16] else none
      else
        match b64Index c2 with
        | some n2 =>
          if c3 = 61 then
            if rest = [] then some [n0 * 4 + n1 / 16, n1 % 16 * 16 + n2 / 4] else none
          else
            match b64Index c3, b64decode rest with
            | some n3, some tail =>
                some ((n0 * 4 + n1 / 16) :: (n1 % 16 * 16 + n2 / 4) :: (n2 % 4 * 64 + n3) :: tail)
            | _, _ => none
        | none => none
    | _, _ => none
  | _ => none

/-! ### Key-file codec (from `loco_helper.py`) -/

/-- The JSON object of a `.lfkey` file, with each field possibly absent.
`name` is the JSON string of the key name; `keyData` is the ASCII text of the
base64-encoded key bytes. -/
structure KeyFileJson where
  name : Option String
  keyData : Option (List Nat)
deriving DecidableEq

/-- Failures of `load_key_from_file`: a missing field raises `KeyError`.  The
`badBase64` constructor is only the model's name for the failure path of the
stricter-than-Python `b64decode` above; no theorem states anything about it. -/
inductive KeyFileError
  | missingField
  | badBase64
deriving DecidableEq

/-- Embedding of the record built by `create_key_file` (`loco_helper.py:14-34`):
`{"name": key_name, "keyData": base64(key_data)}`. -/
def create_key_file (keyName : String) (keyData : List Nat) : KeyFileJson :=
  ⟨some keyName, some (b64encode keyData)⟩

/-- Embedding of `load_key_from_file` (`loco_helper.py:105-113`): read
`keyData`, base64-decode it, read `name`, and return the pair.  No length
check is performed on the decoded key bytes. -/
def load_key_from_file (j : KeyFileJson) : Except KeyFileError (String × List Nat) :=
  match j.keyData with
  | none => .error .missingField
  | some kd =>
    match b64decode kd with
    | none => .error .badBase64
    | some key =>
      match j.name with
      | none => .error .missingField
      | some n => .ok (n, key)

/-! ### Locaphoto bundle (from `create_sample_locaphoto.py`) -/

/-- Hash algorithms appearing in the OAEP configuration. -/
inductive HashAlg
  | sha1
  | sha256
deriving DecidableEq

/-- The OAEP configuration of an RSA encryption call: the MGF1 hash, the main
hash, and the label (`None` in Python is the empty byte string). -/
structure OAEPParams where
  mgfAlgorithm : HashAlg
  algorithm : HashAlg
  label : List Nat
deriving DecidableEq

/-- Embedding of `encrypt_symmetric_key` (`create_sample_locaphoto.py:69-79`):
wrap the symmetric key with the recipient's RSA public-key operation, under
OAEP with MGF1(SHA-256), SHA-256 and empty label.  The external RSA operation
`public_key.encrypt` is the injected `pubEncrypt`, taking the OAEP
configuration the call site passes. -/
def encrypt_symmetric_key (pubEncrypt : OAEPParams → List Nat → List Nat)
    (symmetricKey : List Nat) : List Nat :=
  pubEncrypt ⟨HashAlg.sha256, HashAlg.sha256, []⟩ symmetricKey

/-- Embedding of `encrypt_photo` (`create_sample_locaphoto.py:48-67`): AES-GCM
under a fresh 12-byte IV, returning `(ciphertext, iv, auth_tag)` with the tag
split off as the last 16 bytes of the AEAD output. -/
def encrypt_photo (imageData symmetricKey : List Nat) (rand : Nat → Nat) :
    List Nat × List Nat × List Nat :=
  let iv := tokenBytes rand 0 12
  let encryptedResult := aesgcmEncrypt symmetricKey iv imageData []
  (encryptedResult.take (encryptedResult.length - 16), iv,
    encryptedResult.drop (encryptedResult.length - 16))

/-- ASCII code of the lowercase hex digit for `n < 16`. -/
def hexDigitAscii (n : Nat) : Nat := if n < 10 then 48 + n else 87 + n

/-- Hex digit `i` (of 32) of the modelled version-4 UUID: digit 12 is `4`,
digit 16 has its two top bits `10`, the rest are random. -/
def uuidDigit (rand : Nat → Nat) (i : Nat) : Nat :=
  if i = 12 then 4 else if i = 16 then 8 + rand (100 + i) % 4 else rand (100 + i) % 16

/-- ASCII codes of hex digits `lo` to `hi - 1` of the modelled UUID. -/
def uuidGroup (rand : Nat → Nat) (lo hi : Nat) : List Nat :=
  (List.range (hi - lo)).map (fun j => hexDigitAscii (uuidDigit rand (lo + j)))

/-- Model of `str(uuid.uuid4())` (external library): the 36-character ASCII
text of a version-4 UUID, hex-digit groups of 8-4-4-4-12 joined by `-`
(ASCII 45), drawn from the injected random source. -/
def uuid4From (rand : Nat → Nat) : List Nat :=
  uuidGroup rand 0 8 ++ 45 :: uuidGroup rand 8 12 ++ 45 :: uuidGroup rand 12 16 ++
    45 :: uuidGroup rand 16 20 ++ 45 :: uuidGroup rand 20 32

/-- The `photo` sub-record of a locaphoto bundle.  `id` is the ASCII text of
the UUID; the other fields are the ASCII text of base64-encoded bytes. -/
structure PhotoRecord where
  id : List Nat
  encryptedData : List Nat
  encryptedKey : List Nat
  iv : List Nat
  authTag : List Nat
deriving DecidableEq

/-- The `metadata` sub-record of a locaphoto bundle. -/
structure BundleMetadata where
  originalSize : Nat
  captureDate : String
  width : Nat
  height : Nat
  format : String
deriving DecidableEq

/-- A locaphoto bundle: the JSON object written by `create_locaphoto_bundle`. -/
structure Bundle where
  version : String
  photo : PhotoRecord
  metadata : BundleMetadata
deriving DecidableEq

/-- Embedding of `create_locaphoto_bundle` (`create_sample_locaphoto.py:81-114`):
encrypt the photo, wrap the symmetric key, generate a UUID, and assemble the
bundle; returns `(bundle, photo_id)`.  `nowIso` injects
`datetime.utcnow().isoformat()`. -/
def create_locaphoto_bundle (imageData symmetricKey : List Nat)
    (pubEncrypt : OAEPParams → List Nat → List Nat) (rand : Nat → Nat)
    (nowIso : String) : Bundle × List Nat :=
  let ep := encrypt_photo imageData symmetricKey rand
  let encryptedKey := encrypt_symmetric_key pubEncrypt symmetricKey
  let photoId := uuid4From rand
  (⟨"1.0",
    ⟨photoId, b64encode ep.1, b64encode encryptedKey, b64encode ep.2.1, b64encode ep.2.2⟩,
    ⟨imageData.length, nowIso ++ "Z", 1, 1, "PNG"⟩⟩,
   photoId)

/-! ### Helper lemmas -/

theorem length_tokenBytes (rand : Nat → Nat) (start n : Nat) :
    (tokenBytes rand start n).length = n := by
  simp [tokenBytes]

theorem length_gcmKeystream (key nonce : List Nat) (n : Nat) :
    (gcmKeystream key nonce n).length = n := by
  simp [gcmKeystream]

theorem length_gcmCiphertext (key nonce pt : List Nat) :
    (gcmCiphertext key nonce pt).length = pt.length := by
  simp [gcmCiphertext, length_gcmKeystream]

theorem length_gcmTag (key nonce ct aad : List Nat) :
    (gcmTag key nonce ct aad).length = 16 := by
  simp [gcmTag]

theorem aesgcm_take_ct (key nonce pt aad : List Nat) :
    (aesgcmEncrypt key nonce pt aad).take ((aesgcmEncrypt key nonce pt aad).length - 16) =
      gcmCiphertext key nonce pt := by
  have h : (aesgcmEncrypt key nonce pt aad).length - 16 =
      (gcmCiphertext key nonce pt).length := by
    simp [aesgcmEncrypt, length_gcmTag]
  rw [h, aesgcmEncrypt, List.take_left]

theorem aesgcm_drop_tag (key nonce pt aad : List Nat) :
    (aesgcmEncrypt key nonce pt aad).drop ((aesgcmEncrypt key nonce pt aad).length - 16) =
      gcmTag key nonce (gcmCiphertext key nonce pt) aad := by
  have h : (aesgcmEncrypt key nonce pt aad).length - 16 =
      (gcmCiphertext key nonce pt).length := by
    simp [aesgcmEncrypt, length_gcmTag]
  rw [h, aesgcmEncrypt, List.drop_left]

theorem zipWith_xor_cancel :
    ∀ (pt ks : List Nat), pt.length ≤ ks.length →
      List.zipWith Nat.xor (List.zipWith Nat.xor pt ks) ks = pt
  | [], _, _ => by simp
  | _ :: _, [], h => by simp at h
  | p :: pt, k :: ks, h => by
    simp only [List.zipWith_cons_cons]
    rw [show (p.xor k).xor k = p from Nat.xor_cancel_right k p,
      zipWith_xor_cancel pt ks (by simpa using h)]

/-- Canonical shape of a successful LFS encode: zero-padded header, then the
AEAD ciphertext, then the nonce drawn from the random source, then the tag
computed over the ciphertext with empty associated data. -/
theorem create_lfs_file_ok (keyName key pt : List Nat) (rand : Nat → Nat)
    (hname : keyName.length ≤ 128) :
    create_lfs_file keyName key pt rand =
      .ok ((keyName ++ List.replicate (128 - keyName.length) 0) ++
        gcmCiphertext key (tokenBytes rand 0 12) pt ++ tokenBytes rand 0 12 ++
        gcmTag key (tokenBytes rand 0 12) (gcmCiphertext key (tokenBytes rand 0 12) pt) []) := by
  rw [create_lfs_file]
  simp only [aesgcm_take_ct, aesgcm_drop_tag]
  rw [if_neg (by omega)]

theorem encrypt_single_file_eq (keyName key pt : List Nat) (rand : Nat → Nat) :
    encrypt_single_file keyName key pt rand = create_lfs_file keyName key pt rand := rfl

theorem concat_length (header ct nonce tag : List Nat)
    (hh : header.length = 128) (hn : nonce.length = 12) (ht : tag.length = 16) :
    (header ++ ct ++ nonce ++ tag).length = 156 + ct.length := by
  simp [hh, hn, ht]; omega

theorem concat_take_header (header ct nonce tag : List Nat) (hh : header.length = 128) :
    (header ++ ct ++ nonce ++ tag).take 128 = header := by
  rw [List.append_assoc, List.append_assoc, List.take_left' hh]

theorem concat_take_ct (header ct nonce tag : List Nat)
    (hh : header.length = 128) (hn : nonce.length = 12) (ht : tag.length = 16) :
    ((header ++ ct ++ nonce ++ tag).drop 128).take
      ((header ++ ct ++ nonce ++ tag).length - 156) = ct := by
  rw [concat_length header ct nonce tag hh hn ht, List.append_assoc, List.append_assoc,
    List.drop_left' hh]
  have h156 : 156 + ct.length - 156 = ct.length := by omega
  rw [h156, List.take_left]

theorem concat_take_nonce (header ct nonce tag : List Nat)
    (hh : header.length = 128) (hn : nonce.length = 12) (ht : tag.length = 16) :
    ((header ++ ct ++ nonce ++ tag).drop
      ((header ++ ct ++ nonce ++ tag).length - 28)).take 12 = nonce := by
  rw [concat_length header ct nonce tag hh hn ht, List.append_assoc (header ++ ct) nonce tag]
  have h28 : 156 + ct.length - 28 = (header ++ ct).length := by simp [hh]; omega
  rw [h28, List.drop_left, List.take_left' hn]

theorem concat_drop_tag (header ct nonce tag : List Nat)
    (hh : header.length = 128) (hn : nonce.length = 12) (ht : tag.length = 16) :
    (header ++ ct ++ nonce ++ tag).drop
      ((header ++ ct ++ nonce ++ tag).length - 16) = tag := by
  rw [concat_length header ct nonce tag hh hn ht]
  have h16 : 156 + ct.length - 16 = (header ++ ct ++ nonce).length := by
    simp [hh, hn]; omega
  rw [h16, List.drop_left]

/-- Decoding a well-formed concatenation `header ++ ct ++ nonce ++ tag` slices
the regions back apart and returns whatever the AEAD decrypt yields. -/
theorem decode_lfs_concat (header ct nonce tag key pt : List Nat)
    (resolver : List Nat → Option (List Nat))
    (hh : header.length = 128) (hn : nonce.length = 12) (ht : tag.length = 16)
    (hres : ∀ n, resolver n = some key)
    (hdec : aesgcmDecrypt key nonce ct tag [] = some pt) :
    decode_lfs (header ++ ct ++ nonce ++ tag) resolver = .ok pt := by
  rw [decode_lfs]
  rw [if_neg (by rw [concat_length header ct nonce tag hh hn ht]; omega)]
  simp only [hres, concat_take_ct header ct nonce tag hh hn ht,
    concat_take_nonce header ct nonce tag hh hn ht,
    concat_drop_tag header ct nonce tag hh hn ht, hdec]

theorem aesgcmDecrypt_encrypt (key nonce pt : List Nat) :
    aesgcmDecrypt key nonce (gcmCiphertext key nonce pt)
      (gcmTag key nonce (gcmCiphertext key nonce pt) []) [] = some pt := by
  rw [aesgcmDecrypt, if_pos rfl, length_gcmCiphertext, gcmCiphertext,
    zipWith_xor_cancel pt _ (by rw [length_gcmKeystream])]

theorem b64Index_b64Char : ∀ n, n < 64 → b64Index (b64Char n) = some n := by decide

theorem b64Char_ne_61 : ∀ n, n < 64 → b64Char n ≠ 61 := by decide

theorem b64decode_encode :
    ∀ bs : List Nat, (∀ b ∈ bs, b < 256) → b64decode (b64encode bs) = some bs
  | [], _ => rfl
  | [b0], h => by
    have hb0 : b0 < 256 := h b0 (by simp)
    have i0 := b64Index_b64Char (b0 / 4) (by omega)
    have i1 := b64Index_b64Char (b0 % 4 * 16) (by omega)
    simp only [b64encode, b64decode, i0, i1, Option.some.injEq, List.cons.injEq, and_true,
      reduceIte, and_self]
    omega
  | [b0, b1], h => by
    have hb0 : b0 < 256 := h b0 (by simp)
    have hb1 : b1 < 256 := h b1 (by simp)
    have i0 := b64Index_b64Char (b0 / 4) (by omega)
    have i1 := b64Index_b64Char (b0 % 4 * 16 + b1 / 16) (by omega)
    have i2 := b64Index_b64Char (b1 % 16 * 4) (by omega)
    have n2 : (b64Char (b1 % 16 * 4) = 61) = False := by
      simpa using b64Char_ne_61 (b1 % 16 * 4) (by omega)
    simp only [b64encode, b64decode, i0, i1, i2, n2, Option.some.injEq, List.cons.injEq,
      and_true, reduceIte, if_false]
    omega
  | b0 :: b1 :: b2 :: rest, h => by
    have hb0 : b0 < 256 := h b0 (by simp)
    have hb1 : b1 < 256 := h b1 (by simp)
    have hb2 : b2 < 256 := h b2 (by simp)
    have ih : b64decode (b64encode rest) = some rest :=
      b64decode_encode rest (fun b hb => h b (by simp [hb]))
    have i0 := b64Index_b64Char (b0 / 4) (by omega)
    have i1 := b64Index_b64Char (b0 % 4 * 16 + b1 / 16) (by omega)
    have i2 := b64Index_b64Char (b1 % 16 * 4 + b2 / 64) (by omega)
    have i3 := b64Index_b64Char (b2 % 64) (by omega)
    have n2 : (b64Char (b1 % 16 * 4 + b2 / 64) = 61) = False := by
      simpa using b64Char_ne_61 (b1 % 16 * 4 + b2 / 64) (by omega)
    have n3 : (b64Char (b2 % 64) = 61) = False := by
      simpa using b64Char_ne_61 (b2 % 64) (by omega)
    simp only [b64encode, b64decode, i0, i1, i2, i3, n2, n3, ih, Option.some.injEq,
      List.cons.injEq, and_true, if_false]
    omega

theorem length_header (keyName : List Nat) (hname : keyName.length ≤ 128) :
    (keyName ++ List.replicate (128 - keyName.length) 0).length = 128 := by
  simp; omega

theorem length_uuid4From (rand : Nat → Nat) : (uuid4From rand).length = 36 := by
  simp [uuid4From, uuidGroup]

/-! ### The claims -/

/-- Claim C1: for every key name of at most 128 UTF-8 bytes, every 32-byte key
and every plaintext (including empty), the LFS container produced by encode is
the concatenation of the 128-byte zero-padded key-name field, the ciphertext
(of the plaintext's length), the 12-byte nonce, and the 16-byte tag; its total
length is 128 + len(P) + 12 + 16, hence at least 156.  The same holds of the
`encrypt_single_file` encoder. -/
theorem C1_lfs_layout (keyName key pt : List Nat) (rand : Nat → Nat)
    (hname : keyName.length ≤ 128) (_hkey : key.length = 32) :
    ∃ out, create_lfs_file keyName key pt rand = .ok out ∧
      out = (keyName ++ List.replicate (128 - keyName.length) 0) ++
        gcmCiphertext key (tokenBytes rand 0 12) pt ++ tokenBytes rand 0 12 ++
        gcmTag key (tokenBytes rand 0 12) (gcmCiphertext key (tokenBytes rand 0 12) pt) [] ∧
      (keyName ++ List.replicate (128 - keyName.length) 0).length = 128 ∧
      (gcmCiphertext key (tokenBytes rand 0 12) pt).length = pt.length ∧
      (tokenBytes rand 0 12).length = 12 ∧
      (gcmTag key (tokenBytes rand 0 12) (gcmCiphertext key (tokenBytes rand 0 12) pt) []).length
        = 16 ∧
      out.length = 128 + pt.length + 12 + 16 ∧ 156 ≤ out.length ∧
      encrypt_single_file keyName key pt rand = .ok out := by
  refine ⟨_, create_lfs_file_ok keyName key pt rand hname, rfl,
    length_header keyName hname, length_gcmCiphertext key (tokenBytes rand 0 12) pt,
    length_tokenBytes rand 0 12, length_gcmTag key (tokenBytes rand 0 12) _ [], ?_, ?_, ?_⟩
  · rw [concat_length _ _ _ _ (length_header keyName hname) (length_tokenBytes rand 0 12)
      (length_gcmTag key (tokenBytes rand 0 12) _ []),
      length_gcmCiphertext key (tokenBytes rand 0 12) pt]
    omega
  · rw [concat_length _ _ _ _ (length_header keyName hname) (length_tokenBytes rand 0 12)
      (length_gcmTag key (tokenBytes rand 0 12) _ [])]
    omega
  · rw [encrypt_single_file_eq, create_lfs_file_ok keyName key pt rand hname]

theorem C1_lfs_layout_witness :
    ∃ out, create_lfs_file [65] (List.replicate 32 7) [1, 2, 3] (fun i => i) = .ok out ∧
      out.length = 128 + 3 + 12 + 16 ∧ 156 ≤ out.length := by
  obtain ⟨out, h1, _, _, _, _, _, h7, h8, _⟩ :=
    C1_lfs_layout [65] (List.replicate 32 7) [1, 2, 3] (fun i => i) (by decide) (by decide)
  exact ⟨out, h1, by simpa using h7, h8⟩

/-- Claim C2: for every plaintext (including empty), every 32-byte key `K` and
every key identifier of at most 128 UTF-8 bytes, decoding the container
produced by encode with a resolver that returns `K` yields exactly the
plaintext. -/
theorem C2_lfs_roundtrip (keyName key pt : List Nat) (rand : Nat → Nat)
    (resolver : List Nat → Option (List Nat))
    (hname : keyName.length ≤ 128) (_hkey : key.length = 32)
    (hres : ∀ n, resolver n = some key) :
    ∃ out, create_lfs_file keyName key pt rand = .ok out ∧
      decode_lfs out resolver = .ok pt := by
  refine ⟨_, create_lfs_file_ok keyName key pt rand hname, ?_⟩
  exact decode_lfs_concat _ _ _ _ key pt resolver (length_header keyName hname)
    (length_tokenBytes rand 0 12) (length_gcmTag key (tokenBytes rand 0 12) _ []) hres
    (aesgcmDecrypt_encrypt key (tokenBytes rand 0 12) pt)

theorem C2_lfs_roundtrip_witness :
    ∃ out, create_lfs_file [65] (List.replicate 32 7) [9, 8] (fun i => i) = .ok out ∧
      decode_lfs out (fun _ => some (List.replicate 32 7)) = .ok [9, 8] :=
  C2_lfs_roundtrip [65] (List.replicate 32 7) [9, 8] (fun i => i)
    (fun _ => some (List.replicate 32 7)) (by decide) (by decide) (fun _ => rfl)

/-- Claim C3: LFS encode fails with `KeyNameTooLong` exactly when the UTF-8
byte length of the key name exceeds 128 (so a 128-byte name encodes
successfully and a 129-byte name fails), for both LFS encoders. -/
theorem C3_key_name_boundary (keyName key pt : List Nat) (rand : Nat → Nat) :
    (create_lfs_file keyName key pt rand = .error .keyNameTooLong ↔ 128 < keyName.length) ∧
    (encrypt_single_file keyName key pt rand = .error .keyNameTooLong ↔ 128 < keyName.length) ∧
    (keyName.length ≤ 128 → ∃ out, create_lfs_file keyName key pt rand = .ok out) := by
  by_cases hl : 128 < keyName.length
  · have he : create_lfs_file keyName key pt rand = .error .keyNameTooLong := by
      rw [create_lfs_file]
      simp only [if_pos hl]
    exact ⟨by simp [he, hl], by simp [encrypt_single_file_eq, he, hl], fun hc => by omega⟩
  · have he := create_lfs_file_ok keyName key pt rand (by omega)
    exact ⟨by simp [he, hl], by simp [encrypt_single_file_eq, he, hl], fun _ => ⟨_, he⟩⟩

theorem C3_key_name_boundary_witness :
    create_lfs_file (List.replicate 129 65) [] [] (fun i => i) =
      .error LfsEncodeError.keyNameTooLong ∧
    ∃ out, create_lfs_file (List.replicate 128 65) [] [] (fun i => i) = .ok out :=
  ⟨(C3_key_name_boundary (List.replicate 129 65) [] [] (fun i => i)).1.mpr (by simp),
   (C3_key_name_boundary (List.replicate 128 65) [] [] (fun i => i)).2.2 (by simp)⟩

/-- Claim C6: every AEAD encryption call made by the encode operations binds
empty associated data — the tag region of an LFS container and the `authTag`
field of a locaphoto bundle are the AEAD tag computed over the ciphertext with
the empty byte string as associated data, never over the key identifier,
bundle id or metadata. -/
theorem C6_empty_aad (keyName key pt img symKey : List Nat) (rand randB : Nat → Nat)
    (pubEncrypt : OAEPParams → List Nat → List Nat) (nowIso : String)
    (hname : keyName.length ≤ 128) :
    (∃ out, create_lfs_file keyName key pt rand = .ok out ∧
      encrypt_single_file keyName key pt rand = .ok out ∧
      out.drop (out.length - 16) =
        gcmTag key (tokenBytes rand 0 12) (gcmCiphertext key (tokenBytes rand 0 12) pt) []) ∧
    (create_locaphoto_bundle img symKey pubEncrypt randB nowIso).1.photo.authTag =
      b64encode (gcmTag symKey (tokenBytes randB 0 12)
        (gcmCiphertext symKey (tokenBytes randB 0 12) img) []) := by
  constructor
  · refine ⟨_, create_lfs_file_ok keyName key pt rand hname, ?_, ?_⟩
    · rw [encrypt_single_file_eq, create_lfs_file_ok keyName key pt rand hname]
    · exact concat_drop_tag _ _ _ _ (length_header keyName hname)
        (length_tokenBytes rand 0 12) (length_gcmTag key (tokenBytes rand 0 12) _ [])
  · simp only [create_locaphoto_bundle, encrypt_photo, aesgcm_drop_tag]

theorem C6_empty_aad_witness :
    (∃ out, create_lfs_file [65] (List.replicate 32 7) [3, 4] (fun i => i) = .ok out ∧
      encrypt_single_file [65] (List.replicate 32 7) [3, 4] (fun i => i) = .ok out ∧
      out.drop (out.length - 16) =
        gcmTag (List.replicate 32 7) (tokenBytes (fun i => i) 0 12)
          (gcmCiphertext (List.replicate 32 7) (tokenBytes (fun i => i) 0 12) [3, 4]) []) ∧
    (create_locaphoto_bundle [5] (List.replicate 32 9) (fun _ m => m) (fun i => i)
        "2024-01-01T00:00:00").1.photo.authTag =
      b64encode (gcmTag (List.replicate 32 9) (tokenBytes (fun i => i) 0 12)
        (gcmCiphertext (List.replicate 32 9) (tokenBytes (fun i => i) 0 12) [5]) []) :=
  C6_empty_aad [65] (List.replicate 32 7) [3, 4] [5] (List.replicate 32 9)
    (fun i => i) (fun i => i) (fun _ m => m) "2024-01-01T00:00:00" (by decide)

set_option maxRecDepth 4096 in
/-- Claim C7 as stated is false: with differing random draws but empty
plaintext, the two containers' ciphertext regions are both empty, hence equal,
not different. -/
theorem C7_counterexample :
    tokenBytes (fun _ => 0) 0 12 ≠ tokenBytes (fun _ => 1) 0 12 ∧
    ∃ out1 out2, create_lfs_file [65] (List.replicate 32 7) [] (fun _ => 0) = .ok out1 ∧
      create_lfs_file [65] (List.replicate 32 7) [] (fun _ => 1) = .ok out2 ∧
      (out1.drop 128).take (out1.length - 156) = (out2.drop 128).take (out2.length - 156) := by
  refine ⟨by decide, _, _, rfl, rfl, ?_⟩
  decide

/-- Claim C7 (amended): each container-encode operation draws its 12-byte
nonce internally from the injected random source (it is not a caller-supplied
parameter), so two encode calls on the same plaintext and key whose random
draws differ yield containers with different nonce regions, and hence the two
containers themselves differ; the ciphertext regions need not differ (for
empty plaintext both are empty). -/
theorem C7_nonce_freshness (keyName key pt : List Nat) (rand1 rand2 : Nat → Nat)
    (hname : keyName.length ≤ 128)
    (hdraw : tokenBytes rand1 0 12 ≠ tokenBytes rand2 0 12) :
    ∃ out1 out2, create_lfs_file keyName key pt rand1 = .ok out1 ∧
      create_lfs_file keyName key pt rand2 = .ok out2 ∧
      (out1.drop (out1.length - 28)).take 12 = tokenBytes rand1 0 12 ∧
      (out2.drop (out2.length - 28)).take 12 = tokenBytes rand2 0 12 ∧
      (out1.drop (out1.length - 28)).take 12 ≠ (out2.drop (out2.length - 28)).take 12 ∧
      out1 ≠ out2 := by
  have e1 := concat_take_nonce (keyName ++ List.replicate (128 - keyName.length) 0)
    (gcmCiphertext key (tokenBytes rand1 0 12) pt) (tokenBytes rand1 0 12)
    (gcmTag key (tokenBytes rand1 0 12) (gcmCiphertext key (tokenBytes rand1 0 12) pt) [])
    (length_header keyName hname) (length_tokenBytes rand1 0 12)
    (length_gcmTag key (tokenBytes rand1 0 12) _ [])
  have e2 := concat_take_nonce (keyName ++ List.replicate (128 - keyName.length) 0)
    (gcmCiphertext key (tokenBytes rand2 0 12) pt) (tokenBytes rand2 0 12)
    (gcmTag key (tokenBytes rand2 0 12) (gcmCiphertext key (tokenBytes rand2 0 12) pt) [])
    (length_header keyName hname) (length_tokenBytes rand2 0 12)
    (length_gcmTag key (tokenBytes rand2 0 12) _ [])
  refine ⟨_, _, create_lfs_file_ok keyName key pt rand1 hname,
    create_lfs_file_ok keyName key pt rand2 hname, e1, e2, ?_, ?_⟩
  · rw [e1, e2]; exact hdraw
  · intro hcontra
    apply hdraw
    rw [← e1, ← e2, hcontra]

theorem C7_nonce_freshness_witness :
    ∃ out1 out2, create_lfs_file [65] (List.replicate 32 7) [1] (fun _ => 0) = .ok out1 ∧
      create_lfs_file [65] (List.replicate 32 7) [1] (fun _ => 1) = .ok out2 ∧
      (out1.drop (out1.length - 28)).take 12 = tokenBytes (fun _ => 0) 0 12 ∧
      (out2.drop (out2.length - 28)).take 12 = tokenBytes (fun _ => 1) 0 12 ∧
      (out1.drop (out1.length - 28)).take 12 ≠ (out2.drop (out2.length - 28)).take 12 ∧
      out1 ≠ out2 :=
  C7_nonce_freshness [65] (List.replicate 32 7) [1] (fun _ => 0) (fun _ => 1)
    (by decide) (by decide)

/-- Claim C10: LFS encode accepts key identifiers containing embedded zero
bytes — for any key name shorter than 128 bytes, appending a zero byte still
encodes successfully, and the resulting 128-byte header is byte-for-byte the
header of the shorter name, so the zero-padding-stripping recovery of the
identifier at decode time cannot tell the two names apart. -/
theorem C10_embedded_zero_ambiguity (keyName key pt : List Nat) (rand : Nat → Nat)
    (hname : keyName.length < 128) :
    ∃ out out', create_lfs_file (keyName ++ [0]) key pt rand = .ok out ∧
      create_lfs_file keyName key pt rand = .ok out' ∧
      (keyName ++ [0]).contains 0 = true ∧
      keyName ++ [0] ≠ keyName ∧
      out.take 128 = out'.take 128 ∧
      stripTrailingZeros (out.take 128) = stripTrailingZeros (out'.take 128) := by
  have hlen : (keyName ++ [0]).length ≤ 128 := by simp; omega
  have hpad : (keyName ++ [0]) ++ List.replicate (128 - (keyName ++ [0]).length) 0 =
      keyName ++ List.replicate (128 - keyName.length) 0 := by
    rw [List.append_assoc]
    congr 1
    have h1 : 128 - keyName.length = (128 - (keyName.length + 1)) + 1 := by omega
    simp only [List.length_append, List.length_cons, List.length_nil, h1]
    rw [List.replicate_succ, List.singleton_append]
  refine ⟨_, _, create_lfs_file_ok (keyName ++ [0]) key pt rand hlen,
    create_lfs_file_ok keyName key pt rand (by omega), by simp, by simp, ?_, ?_⟩
  · rw [concat_take_header _ _ _ _ (length_header (keyName ++ [0]) hlen),
      concat_take_header _ _ _ _ (length_header keyName (by omega)), hpad]
  · rw [concat_take_header _ _ _ _ (length_header (keyName ++ [0]) hlen),
      concat_take_header _ _ _ _ (length_header keyName (by omega)), hpad]

theorem C10_embedded_zero_ambiguity_witness :
    ∃ out out', create_lfs_file ([65] ++ [0]) (List.replicate 32 7) [1] (fun i => i) = .ok out ∧
      create_lfs_file [65] (List.replicate 32 7) [1] (fun i => i) = .ok out' ∧
      (([65] : List Nat) ++ [0]).contains 0 = true ∧
      ([65] : List Nat) ++ [0] ≠ [65] ∧
      out.take 128 = out'.take 128 ∧
      stripTrailingZeros (out.take 128) = stripTrailingZeros (out'.take 128) :=
  C10_embedded_zero_ambiguity [65] (List.replicate 32 7) [1] (fun i => i) (by decide)

/-- Claim C4: for every plaintext, the bundle produced by
`create_locaphoto_bundle` has top-level `version = "1.0"`, a `photo` record
whose `id` is the generated 36-character UUID string and whose
`encryptedData`, `encryptedKey`, `iv` and `authTag` are the base64 encodings
of the ciphertext, the wrapped key, the nonce and the tag, and a `metadata`
record with fields `originalSize` (equal to the plaintext length),
`captureDate`, `width`, `height` and `format`. -/
theorem C4_bundle_structure (img symKey : List Nat)
    (pubEncrypt : OAEPParams → List Nat → List Nat) (rand : Nat → Nat) (nowIso : String) :
    (create_locaphoto_bundle img symKey pubEncrypt rand nowIso).1.version = "1.0" ∧
    (create_locaphoto_bundle img symKey pubEncrypt rand nowIso).1.photo.id = uuid4From rand ∧
    (create_locaphoto_bundle img symKey pubEncrypt rand nowIso).2 = uuid4From rand ∧
    (uuid4From rand).length = 36 ∧
    (create_locaphoto_bundle img symKey pubEncrypt rand nowIso).1.photo.encryptedData =
      b64encode (gcmCiphertext symKey (tokenBytes rand 0 12) img) ∧
    (create_locaphoto_bundle img symKey pubEncrypt rand nowIso).1.photo.encryptedKey =
      b64encode (encrypt_symmetric_key pubEncrypt symKey) ∧
    (create_locaphoto_bundle img symKey pubEncrypt rand nowIso).1.photo.iv =
      b64encode (tokenBytes rand 0 12) ∧
    (create_locaphoto_bundle img symKey pubEncrypt rand nowIso).1.photo.authTag =
      b64encode (gcmTag symKey (tokenBytes rand 0 12)
        (gcmCiphertext symKey (tokenBytes rand 0 12) img) []) ∧
    (create_locaphoto_bundle img symKey pubEncrypt rand nowIso).1.metadata.originalSize =
      img.length ∧
    (create_locaphoto_bundle img symKey pubEncrypt rand nowIso).1.metadata.captureDate =
      nowIso ++ "Z" ∧
    (create_locaphoto_bundle img symKey pubEncrypt rand nowIso).1.metadata.width = 1 ∧
    (create_locaphoto_bundle img symKey pubEncrypt rand nowIso).1.metadata.height = 1 ∧
    (create_locaphoto_bundle img symKey pubEncrypt rand nowIso).1.metadata.format = "PNG" := by
  refine ⟨rfl, rfl, rfl, length_uuid4From rand, ?_, rfl, rfl, ?_, rfl, rfl, rfl, rfl, rfl⟩
  · simp only [create_locaphoto_bundle, encrypt_photo, aesgcm_take_ct]
  · simp only [create_locaphoto_bundle, encrypt_photo, aesgcm_drop_tag]

/-- Claim C5: in every bundle, the `encryptedKey` field is the base64 encoding
of the symmetric key wrapped by the recipient's RSA public-key operation under
OAEP with SHA-256 as both the hash and the MGF1 hash and an empty label; and
the raw symmetric key flows into the bundle only through the ciphertext, tag
and wrapped key — two keys producing the same ciphertext, tag and wrapped key
produce identical bundles, so the unwrapped key is stored in no field. -/
theorem C5_key_wrapping (img symKey symKey' : List Nat)
    (pubEncrypt : OAEPParams → List Nat → List Nat) (rand : Nat → Nat) (nowIso : String) :
    (create_locaphoto_bundle img symKey pubEncrypt rand nowIso).1.photo.encryptedKey =
      b64encode (pubEncrypt ⟨HashAlg.sha256, HashAlg.sha256, []⟩ symKey) ∧
    (gcmCiphertext symKey (tokenBytes rand 0 12) img =
        gcmCiphertext symKey' (tokenBytes rand 0 12) img →
      gcmTag symKey (tokenBytes rand 0 12) (gcmCiphertext symKey (tokenBytes rand 0 12) img) [] =
        gcmTag symKey' (tokenBytes rand 0 12)
          (gcmCiphertext symKey' (tokenBytes rand 0 12) img) [] →
      pubEncrypt ⟨HashAlg.sha256, HashAlg.sha256, []⟩ symKey =
        pubEncrypt ⟨HashAlg.sha256, HashAlg.sha256, []⟩ symKey' →
      create_locaphoto_bundle img symKey pubEncrypt rand nowIso =
        create_locaphoto_bundle img symKey' pubEncrypt rand nowIso) := by
  refine ⟨rfl, fun h1 h2 h3 => ?_⟩
  simp only [create_locaphoto_bundle, encrypt_photo, encrypt_symmetric_key,
    aesgcm_take_ct, aesgcm_drop_tag]
  rw [h2, h1, h3]

theorem C5_key_wrapping_witness :
    (create_locaphoto_bundle [5] (List.replicate 32 9) (fun p m => p.label ++ m) (fun i => i)
        "2024-01-01T00:00:00").1.photo.encryptedKey =
      b64encode ((fun (p : OAEPParams) (m : List Nat) => p.label ++ m)
        ⟨HashAlg.sha256, HashAlg.sha256, []⟩ (List.replicate 32 9)) ∧
    create_locaphoto_bundle [5] (List.replicate 32 9) (fun p m => p.label ++ m) (fun i => i)
        "2024-01-01T00:00:00" =
      create_locaphoto_bundle [5] (List.replicate 32 9) (fun p m => p.label ++ m) (fun i => i)
        "2024-01-01T00:00:00" :=
  ⟨(C5_key_wrapping [5] (List.replicate 32 9) (List.replicate 32 9)
      (fun p m => p.label ++ m) (fun i => i) "2024-01-01T00:00:00").1,
   (C5_key_wrapping [5] (List.replicate 32 9) (List.replicate 32 9)
      (fun p m => p.label ++ m) (fun i => i) "2024-01-01T00:00:00").2 rfl rfl rfl⟩

/-- Claim C8: for every key name and 32-byte key of byte values, the key-file
record produced by encode is `{name: the key name, keyData: base64 of the key
bytes}`, and decoding it returns exactly the original name and key. -/
theorem C8_keyfile_roundtrip (keyName : String) (key : List Nat)
    (_hlen : key.length = 32) (hbytes : ∀ b ∈ key, b < 256) :
    (create_key_file keyName key).name = some keyName ∧
    (create_key_file keyName key).keyData = some (b64encode key) ∧
    load_key_from_file (create_key_file keyName key) = .ok (keyName, key) := by
  refine ⟨rfl, rfl, ?_⟩
  simp only [load_key_from_file, create_key_file, b64decode_encode key hbytes]

theorem C8_keyfile_roundtrip_witness :
    (create_key_file "k" (List.range 32)).name = some "k" ∧
    (create_key_file "k" (List.range 32)).keyData = some (b64encode (List.range 32)) ∧
    load_key_from_file (create_key_file "k" (List.range 32)) = .ok ("k", List.range 32) :=
  C8_keyfile_roundtrip "k" (List.range 32) (by decide) (by decide)

/-- Claim C9 as stated is false: the key-file decoder has no length check, so
a record whose `keyData` decodes to a single byte is accepted and the 1-byte
key returned, instead of failing with `MalformedKeyFile`. -/
theorem C9_counterexample :
    load_key_from_file ⟨some "k", some (b64encode [1])⟩ = .ok ("k", [1]) ∧
    ([1] : List Nat).length ≠ 32 :=
  ⟨rfl, by decide⟩

/-- Claim C9 (amended): key-file decode fails when the `keyData` or `name`
field is absent from the record; but it performs no length validation of the
decoded key material — any byte string that base64-decodes successfully is
returned as the key, whatever its length. -/
theorem C9_keyfile_errors (j : KeyFileJson) (kd key : List Nat) (keyName : String) :
    (j.keyData = none → load_key_from_file j = .error .missingField) ∧
    (j.name = none → j.keyData = some kd → b64decode kd = some key →
      load_key_from_file j = .error .missingField) ∧
    (b64decode kd = some key →
      load_key_from_file ⟨some keyName, some kd⟩ = .ok (keyName, key)) := by
  obtain ⟨jn, jkd⟩ := j
  refine ⟨?_, ?_, ?_⟩
  · intro h
    simp only at h
    subst h
    rfl
  · intro h1 h2 h3
    simp only at h1 h2
    subst h1
    subst h2
    simp [load_key_from_file, h3]
  · intro h3
    simp [load_key_from_file, h3]

theorem C9_keyfile_errors_witness :
    load_key_from_file ⟨some "a", none⟩ = .error KeyFileError.missingField ∧
    load_key_from_file ⟨none, some (b64encode [2, 3])⟩ = .error KeyFileError.missingField ∧
    load_key_from_file ⟨some "a", some (b64encode [7])⟩ = .ok ("a", [7]) :=
  ⟨(C9_keyfile_errors ⟨some "a", none⟩ [] [] "x").1 rfl,
   (C9_keyfile_errors ⟨none, some (b64encode [2, 3])⟩ (b64encode [2, 3]) [2, 3] "x").2.1 rfl rfl
     (by decide),
   (C9_keyfile_errors ⟨some "a", some (b64encode [7])⟩ (b64encode [7]) [7] "a").2.2 (by decide)⟩
